import Mathlib

/-!
Verification development for the blurt push-to-talk voice-to-text daemon.

The Python sources are shallowly embedded: byte strings are `List Nat`
(each entry one byte), Python strings are Lean `String`, the stateful
handlers become explicit step functions over state structures, and code
that can raise becomes `Except`-valued.  Machine times are modelled in
whole milliseconds as `Nat`.
-/

/-- Whitespace test matching Python `str.strip()` with no argument: the
exact set of code points CPython strips (`Py_UNICODE_ISSPACE`), namely
0x09-0x0D, 0x1C-0x1F, space, 0x85 (NEL), 0xA0 (NBSP), 0x1680, the space
separators 0x2000-0x200A, 0x2028, 0x2029, 0x202F, 0x205F and 0x3000. -/
def isPySpace (c : Char) : Bool :=
  let n := c.toNat
  decide (9 ≤ n ∧ n ≤ 13) || decide (28 ≤ n ∧ n ≤ 31) || n == 32 ||
  n == 133 || n == 160 || n == 5760 || decide (8192 ≤ n ∧ n ≤ 8202) ||
  n == 8232 || n == 8233 || n == 8239 || n == 8287 || n == 12288

/-- Python `str.strip()`: drop leading and trailing whitespace. -/
def pyStrip (s : String) : String :=
  String.mk (((s.data.dropWhile isPySpace).reverse.dropWhile isPySpace).reverse)

/-- Little-endian 16-bit encoding of a natural number (as written by the
Python `wave`/`struct` machinery). -/
def le16 (n : Nat) : List Nat := [n % 256, n / 256 % 256]

/-- Little-endian 32-bit encoding of a natural number. -/
def le32 (n : Nat) : List Nat :=
  [n % 256, n / 256 % 256, n / 65536 % 256, n / 16777216 % 256]

/-- Read a little-endian 16-bit value from exactly two bytes. -/
def readLE16 (bs : List Nat) : Option Nat :=
  match bs with
  | [a, b] => some (a + 256 * b)
  | _ => none

/-- Read a little-endian 32-bit value from exactly four bytes. -/
def readLE32 (bs : List Nat) : Option Nat :=
  match bs with
  | [a, b, c, d] => some (a + 256 * b + 65536 * c + 16777216 * d)
  | _ => none

/-- Byte segment of length `n` starting at offset `off`. -/
def seg (bs : List Nat) (off n : Nat) : List Nat := (bs.drop off).take n

/-- Parameters the recorder passes to `wave.open` in
`AudioRecorder.stop_recording` (`setnchannels`, `setframerate`; the sample
width is fixed to 2 bytes in the source). -/
structure WavParams where
  nchannels : Nat
  framerate : Nat
deriving DecidableEq

/-- Byte-level image of the container produced by the Python `wave` module
for 16-bit PCM data, as built in `AudioRecorder.stop_recording`
(`audio_recorder.py` lines 85-93): a 44-byte RIFF/WAVE header with a
16-byte `fmt ` chunk (format tag 1, bits per sample 16) followed by the
raw sample bytes.  The two size fields are `36 + len(data)` and
`len(data)`, which the `wave` module patches to the exact byte counts on
close. -/
def wavEncode (p : WavParams) (data : List Nat) : List Nat :=
  [82, 73, 70, 70] ++ le32 (36 + data.length) ++ [87, 65, 86, 69] ++
  [102, 109, 116, 32] ++ le32 16 ++ le16 1 ++ le16 p.nchannels ++
  le32 p.framerate ++ le32 (p.framerate * (p.nchannels * 2)) ++
  le16 (p.nchannels * 2) ++ le16 16 ++
  [100, 97, 116, 97] ++ le32 data.length ++ data

/-- Result of parsing a WAV container: channel count, frame rate and the
raw data bytes. -/
structure WavFile where
  nchannels : Nat
  framerate : Nat
  dataBytes : List Nat
deriving DecidableEq

/-- Standard WAV reader for the canonical 44-byte-header layout, modelling
what Python `wave.open(..., 'rb')` checks before `readframes` succeeds:
the RIFF/WAVE/fmt/data tags, PCM format tag 1, 16 bits per sample, a
nonzero channel count, and size fields consistent with the actual byte
counts.  Any malformed input (including the empty byte string) yields
`none`, which models the exception `wave.open` raises. -/
def wavParse (bs : List Nat) : Option WavFile :=
  match readLE16 (seg bs 22 2), readLE32 (seg bs 24 4),
        readLE32 (seg bs 40 4), readLE32 (seg bs 4 4) with
  | some ch, some rate, some d, some riffSz =>
      if seg bs 0 4 = [82, 73, 70, 70] ∧ seg bs 8 4 = [87, 65, 86, 69] ∧
         seg bs 12 4 = [102, 109, 116, 32] ∧ seg bs 36 4 = [100, 97, 116, 97] ∧
         readLE32 (seg bs 16 4) = some 16 ∧ readLE16 (seg bs 20 2) = some 1 ∧
         readLE16 (seg bs 34 2) = some 16 ∧ ch ≠ 0 ∧
         riffSz = 36 + d ∧ (bs.drop 44).length = d
      then some ⟨ch, rate, bs.drop 44⟩
      else none
  | _, _, _, _ => none

/-- Two's-complement little-endian bytes of one 16-bit sample, as produced
by `np.array(..., dtype=np.int16).tobytes()`. -/
def int16Bytes (v : Int) : List Nat :=
  let u := (v % 65536).toNat
  [u % 256, u / 256]

/-- Byte string of a whole sample buffer. -/
def samplesBytes (l : List Int) : List Nat := (l.map int16Bytes).flatten

/-- Audio-related configuration (defaults from `config.py`
`_create_default_config`). -/
structure Config where
  sample_rate : Nat
  hold_threshold_ms : Nat
  post_release_ms : Nat
  channels : Nat
deriving DecidableEq

/-- The default configuration written by `Config._create_default_config`. -/
def cfg0 : Config := ⟨16000, 400, 300, 1⟩

/-- State of one `AudioRecorder` instance (`audio_recorder.py`):
the accumulated sample list, the `is_recording` flag, and whether
`self.recorder` still holds a `PvRecorder` handle. -/
structure AudioRecorderState where
  recording : List Int
  is_recording : Bool
  hasRecorder : Bool
deriving DecidableEq

/-- Embedding of `AudioRecorder.stop_recording` (`audio_recorder.py`
lines 65-93): clear the `is_recording` flag, release the recorder handle,
and return `b""` when the sample list is empty, otherwise the WAV
container of the accumulated samples.  The sample list itself is not
cleared by this method (it is reset only by the next `start_recording`). -/
def stop_recording (cfg : Config) (s : AudioRecorderState) :
    List Nat × AudioRecorderState :=
  let s1 : AudioRecorderState := ⟨s.recording, false, false⟩
  if s.recording = [] then ([], s1)
  else (wavEncode ⟨cfg.channels, cfg.sample_rate⟩ (samplesBytes s.recording), s1)

lemma samplesBytes_length (l : List Int) : (samplesBytes l).length = 2 * l.length := by
  induction l with
  | nil => rfl
  | cons x xs ih =>
      simp [samplesBytes, int16Bytes] at ih ⊢
      omega

lemma readLE16_le16 (n : Nat) (h : n < 65536) : readLE16 (le16 n) = some n := by
  simp only [le16, readLE16]
  congr 1
  omega

lemma readLE32_le32 (n : Nat) (h : n < 4294967296) : readLE32 (le32 n) = some n := by
  simp only [le32, readLE32]
  congr 1
  omega

/-- The encoder and the reader round-trip: a container built by
`wavEncode` parses back to exactly the channel count, frame rate and data
bytes that were written, provided the fields fit their widths. -/
lemma wavParse_wavEncode (p : WavParams) (data : List Nat)
    (hch : p.nchannels < 65536) (hch0 : p.nchannels ≠ 0)
    (hrate : p.framerate < 4294967296)
    (hlen : 36 + data.length < 4294967296) :
    wavParse (wavEncode p data) = some ⟨p.nchannels, p.framerate, data⟩ := by
  have t22 : seg (wavEncode p data) 22 2 = le16 p.nchannels := by
    simp [wavEncode, seg, le16, le32]
  have t24 : seg (wavEncode p data) 24 4 = le32 p.framerate := by
    simp [wavEncode, seg, le16, le32]
  have t40 : seg (wavEncode p data) 40 4 = le32 data.length := by
    simp [wavEncode, seg, le16, le32]
  have t4 : seg (wavEncode p data) 4 4 = le32 (36 + data.length) := by
    simp [wavEncode, seg, le16, le32]
  have t44 : (wavEncode p data).drop 44 = data := by
    simp [wavEncode, le16, le32]
  have h22 : readLE16 (seg (wavEncode p data) 22 2) = some p.nchannels := by
    rw [t22]; exact readLE16_le16 _ hch
  have h24 : readLE32 (seg (wavEncode p data) 24 4) = some p.framerate := by
    rw [t24]; exact readLE32_le32 _ hrate
  have h40 : readLE32 (seg (wavEncode p data) 40 4) = some data.length := by
    rw [t40]; exact readLE32_le32 _ (by omega)
  have h4 : readLE32 (seg (wavEncode p data) 4 4) = some (36 + data.length) := by
    rw [t4]; exact readLE32_le32 _ hlen
  have t0 : seg (wavEncode p data) 0 4 = [82, 73, 70, 70] := by
    simp [wavEncode, seg, le16, le32]
  have t8 : seg (wavEncode p data) 8 4 = [87, 65, 86, 69] := by
    simp [wavEncode, seg, le16, le32]
  have t12 : seg (wavEncode p data) 12 4 = [102, 109, 116, 32] := by
    simp [wavEncode, seg, le16, le32]
  have t16 : seg (wavEncode p data) 16 4 = le32 16 := by
    simp [wavEncode, seg, le16, le32]
  have t20 : seg (wavEncode p data) 20 2 = le16 1 := by
    simp [wavEncode, seg, le16, le32]
  have t34 : seg (wavEncode p data) 34 2 = le16 16 := by
    simp [wavEncode, seg, le16, le32]
  have t36 : seg (wavEncode p data) 36 4 = [100, 97, 116, 97] := by
    simp [wavEncode, seg, le16, le32]
  rw [wavParse, h22, h24, h40, h4]
  dsimp only
  rw [if_pos]
  · rw [t44]
  refine ⟨t0, t8, t12, t36, ?_, ?_, ?_, hch0, rfl, by rw [t44]⟩
  · rw [t16]; exact readLE32_le32 16 (by norm_num)
  · rw [t20]; exact readLE16_le16 1 (by norm_num)
  · rw [t34]; exact readLE16_le16 16 (by norm_num)

/-- Split a list into consecutive chunks of `k + 1` elements (the last one
possibly shorter).  This models the read loop
`data = wav_file.readframes(4096)` in `SpeechRecognizer.recognize`, which
hands the audio to the engine at most 4096 frames at a time. -/
def chunksOfPos (k : Nat) : List α → List (List α)
  | [] => []
  | x :: xs => (x :: xs.take k) :: chunksOfPos k (xs.drop k)
termination_by l => l.length
decreasing_by
  simp only [List.length_cons, List.length_drop]
  omega

lemma chunksOfPos_mem_length_le (k : Nat) (l : List α) :
    ∀ c ∈ chunksOfPos k l, c.length ≤ k + 1 := by
  induction l using chunksOfPos.induct k with
  | case1 => intro c hc; simp [chunksOfPos] at hc
  | case2 x xs ih =>
      intro c hc
      rw [chunksOfPos, List.mem_cons] at hc
      rcases hc with hc | hc
      · subst hc
        simp only [List.length_cons]
        have := List.length_take_le k xs
        omega
      · exact ih c hc

lemma chunksOfPos_flatten (k : Nat) (l : List α) :
    (chunksOfPos k l).flatten = l := by
  induction l using chunksOfPos.induct k with
  | case1 => simp [chunksOfPos]
  | case2 x xs ih =>
      rw [chunksOfPos, List.flatten_cons, ih]
      simp [List.take_append_drop]

/-- Observable behaviour of one `vosk.KaldiRecognizer` along a single
`recognize` call: for the i-th chunk fed, whether `AcceptWaveform`
returned true together with the `text` field of `Result()`, and the
`text` field of `FinalResult()` at end of stream.  The chunk sequence fed
is a function of the audio alone, so indexing the responses by chunk
ordinal loses no generality for an arbitrary external engine. -/
structure Engine where
  acceptResult : Nat → Bool × String
  finalText : String

/-- The i-th chunk produces a usable intermediate result: `AcceptWaveform`
returned true and `Result()['text']` is truthy (a non-empty string). -/
def isHit (eng : Engine) (i : Nat) : Bool :=
  (eng.acceptResult i).1 && decide ((eng.acceptResult i).2 ≠ "")

/-- The chunk loop of `SpeechRecognizer.recognize`
(`speech_recognizer.py` lines 79-91): feed chunks in order; on the first
accepted chunk whose text is non-empty return that text stripped,
otherwise fall through to the stripped final result. -/
def recognizeLoop (eng : Engine) : List (List (List Nat)) → Nat → String
  | [], _ => pyStrip eng.finalText
  | _ :: rest, i =>
      if isHit eng i then pyStrip (eng.acceptResult i).2
      else recognizeLoop eng rest (i + 1)

/-- Index of the first hit among chunk ordinals `i, i+1, ..., i+n-1`. -/
def firstHitFrom (eng : Engine) : Nat → Nat → Option Nat
  | _, 0 => none
  | i, n + 1 => if isHit eng i then some i else firstHitFrom eng (i + 1) n

lemma recognizeLoop_spec (eng : Engine) :
    ∀ (cs : List (List (List Nat))) (i : Nat),
      recognizeLoop eng cs i =
        match firstHitFrom eng i cs.length with
        | some j => pyStrip (eng.acceptResult j).2
        | none => pyStrip eng.finalText := by
  intro cs
  induction cs with
  | nil => intro i; rfl
  | cons c rest ih =>
      intro i
      rw [recognizeLoop]
      simp only [List.length_cons, firstHitFrom]
      by_cases h : isHit eng i
      · simp [h]
      · simp [h, ih (i + 1)]

/-- Frames of the parsed WAV data: `readframes` groups the data bytes into
frames of `2 * nchannels` bytes (16-bit samples). -/
def framesOf (ch : Nat) (data : List Nat) : List (List Nat) :=
  chunksOfPos (2 * ch - 1) data

/-- Embedding of `SpeechRecognizer.recognize` (`speech_recognizer.py`
lines 68-91).  With no model loaded it returns the empty string.
Otherwise `wave.open` parses the byte payload — raising (modelled as
`Except.error`) on anything that is not a WAV container — and the chunk
loop feeds the frames to the engine 4096 frames at a time. -/
def recognize (modelLoaded : Bool) (eng : Engine) (audio_data : List Nat) :
    Except Unit String :=
  if modelLoaded = false then .ok ""
  else
    match wavParse audio_data with
    | none => .error ()
    | some w =>
        .ok (recognizeLoop eng (chunksOfPos 4095 (framesOf w.nchannels w.dataBytes)) 0)

/-- Embedding of `TextOutput.type_text` (`text_output.py` lines 17-31):
returns the keystrokes emitted.  Empty or whitespace-only text emits
nothing; otherwise every character of the text is typed. -/
def type_text (text : String) : List Char :=
  if pyStrip text = "" then [] else text.data

/-- Keystrokes that reach the OS for a given recognized text, through the
guard in `Blurt._on_voice_text` (`main.py` lines 23-27) composed with
`TextOutput.type_text`. -/
def injectedKeystrokes (text : String) : List Char :=
  if pyStrip text = "" then [] else type_text text

/-- Embedding of `Blurt._on_voice_text` (`main.py` lines 23-27): recognize
the audio, and type the text when its stripped form is non-empty.  The
method has no exception handler, so an error from `recognize` propagates
out (modelled by the `Except` bind). -/
def on_voice_text (modelLoaded : Bool) (eng : Engine) (audio_data : List Nat) :
    Except Unit (List Char) :=
  match recognize modelLoaded eng audio_data with
  | .error e => .error e
  | .ok text => if pyStrip text = "" then .ok [] else .ok (type_text text)

lemma pyStrip_eq_empty_iff (s : String) :
    pyStrip s = "" ↔ s.data.all isPySpace = true := by
  unfold pyStrip
  constructor
  · intro h
    have hd : (((s.data.dropWhile isPySpace).reverse.dropWhile isPySpace).reverse) = [] := by
      have := congrArg String.data h
      simpa using this
    rw [List.reverse_eq_nil_iff, List.dropWhile_eq_nil_iff] at hd
    have h1 : ∀ x ∈ s.data.dropWhile isPySpace, isPySpace x := by
      intro x hx
      exact hd x (by simpa using hx)
    rw [List.all_eq_true]
    intro x hx
    have hx2 : x ∈ s.data.takeWhile isPySpace ++ s.data.dropWhile isPySpace := by
      rw [List.takeWhile_append_dropWhile]
      exact hx
    rcases List.mem_append.mp hx2 with h2 | h2
    · exact List.mem_takeWhile_imp h2
    · exact h1 x h2
  · intro h
    have hd : s.data.dropWhile isPySpace = [] := by
      rw [List.dropWhile_eq_nil_iff]
      intro x hx
      exact List.all_eq_true.mp h x hx
    rw [hd]
    rfl

/-- The key the handler grabs: `self.target_keycode = 65` (Space) in
`HotkeyHandler.__init__`. -/
def spaceKeycode : Nat := 65

/-- The modifier mask: `self.target_modifier = X.ControlMask` (bit 2,
value 4). -/
def controlMask : Nat := 4

/-- Typical X11 keycode of the left Control key, used only for concrete
modifier-release events in theorems. -/
def ctrlKeycode : Nat := 37

/-- Observable side effects of the blurt session controller.
`start` and `startFailed` are `AudioRecorder.start_recording` succeeding
or raising; `stop` is `stop_recording` returning the given payload;
`transcribe` is the `on_voice_callback` invocation with that payload.
`abortCapture` is the abort operation the specification asks for; the
source has no such operation, so no step ever emits it. -/
inductive BAction where
  | start
  | startFailed
  | stop (payload : List Nat)
  | transcribe (payload : List Nat)
  | abortCapture
  | endSession
deriving DecidableEq

/-- State of the blurt `HotkeyHandler` (`hotkey_handler.py`) together with
its current `AudioRecorder`.  `is_recording` and `press_time` are the
handler's own attributes; `hasAudioRecorder` is `hasattr(self,
'audio_recorder')`; `threadAppending` records whether a capture thread was
successfully started and is appending frames; `audio` is the recorder
instance; `drainPending` records a scheduled `_handle_keyrelease` task
that has already cleared `is_recording` and is sleeping through the
post-release buffer. -/
structure BlurtState where
  is_recording : Bool
  press_time : Option Nat
  hasAudioRecorder : Bool
  threadAppending : Bool
  audio : AudioRecorderState
  drainPending : Bool
deriving DecidableEq

/-- The handler's initial state (`HotkeyHandler.__init__`). -/
def bInit : BlurtState := ⟨false, none, false, false, ⟨[], false, false⟩, false⟩

/-- Events consumed by the controller.  `key press detail st t devOk`
is one X11 event from `dpy.next_event()` with keycode `detail`, modifier
mask `st` and timestamp `t` ms; `devOk` says whether `PvRecorder` can be
constructed at that instant (the environment's device availability).
`frames xs` is one read of the capture thread appending samples
(`_record_audio`), and `drainDone` is the post-release sleep of a
scheduled `_handle_keyrelease` task elapsing. -/
inductive BEv where
  | key (isPress : Bool) (detail : Nat) (st : Nat) (t : Nat) (devOk : Bool)
  | frames (xs : List Int)
  | drainDone
deriving DecidableEq

/-- One step of the blurt controller, serializing `_monitor_keys`
(`hotkey_handler.py` lines 57-92) together with the immediately scheduled
parts of `_handle_keypress` / `_handle_keyrelease` (lines 98-122).

Press with `detail == space_keycode and state & ctrl_modifier` and
`is_recording` false: record `press_time`, set `is_recording`, build an
`AudioRecorder` and start it; a device failure raises out of the
coroutine, leaving all flags as already written.  Press while recording is
ignored.  Release with the same keycode/mask test and a recorded
`press_time`: when the duration meets `hold_threshold_ms` the scheduled
`_handle_keyrelease` clears `is_recording` and begins the drain; when it
is too short nothing but `press_time = None` happens.  Any other key event
falls through every test.  `drainDone` performs `stop_recording` and the
`on_voice_callback` call. -/
def blurtStep (cfg : Config) (s : BlurtState) (e : BEv) : BlurtState × List BAction :=
  match e with
  | .key true detail st t devOk =>
      if detail = spaceKeycode ∧ st &&& controlMask ≠ 0 then
        if s.is_recording = false then
          let s1 : BlurtState :=
            { s with press_time := some t, is_recording := true,
                     hasAudioRecorder := true, audio := ⟨[], true, devOk⟩ }
          if devOk then ({ s1 with threadAppending := true }, [.start])
          else ({ s1 with threadAppending := false }, [.startFailed])
        else (s, [])
      else (s, [])
  | .key false detail st t _ =>
      if detail = spaceKeycode ∧ st &&& controlMask ≠ 0 ∧ s.press_time.isSome then
        if cfg.hold_threshold_ms ≤ t - s.press_time.getD 0 then
          if s.is_recording then
            ({ s with is_recording := false, press_time := none,
                      drainPending := s.hasAudioRecorder }, [])
          else ({ s with press_time := none }, [])
        else ({ s with press_time := none }, [])
      else (s, [])
  | .frames xs =>
      if s.threadAppending ∧ s.audio.is_recording then
        ({ s with audio := ⟨s.audio.recording ++ xs, s.audio.is_recording,
                            s.audio.hasRecorder⟩ }, [])
      else (s, [])
  | .drainDone =>
      if s.drainPending then
        let r := stop_recording cfg s.audio
        ({ s with drainPending := false, threadAppending := false, audio := r.2 },
         [.stop r.1, .transcribe r.1])
      else (s, [])

/-- Run the controller over an event sequence, collecting the actions. -/
def blurtRun (cfg : Config) (s : BlurtState) : List BEv → BlurtState × List BAction
  | [] => (s, [])
  | e :: evs =>
      let r := blurtStep cfg s e
      let rest := blurtRun cfg r.1 evs
      (rest.1, r.2 ++ rest.2)

/-- Keys as seen by the pynput listener in `simple_hotkey.py`. -/
inductive PKey where
  | ctrlL
  | ctrlR
  | space
  | other (n : Nat)
deriving DecidableEq

/-- The `key == keyboard.Key.ctrl_l or key == keyboard.Key.ctrl_r` test. -/
def isCtrl (k : PKey) : Bool := k = PKey.ctrlL || k = PKey.ctrlR

/-- State of `SimpleHotkeyHandler` (`simple_hotkey.py`). -/
structure SimpleState where
  is_recording : Bool
  recording_started : Bool
  ctrl_pressed : Bool
deriving DecidableEq

/-- Embedding of `SimpleHotkeyHandler._on_key_press` (`simple_hotkey.py`
lines 48-65): track the Ctrl state, and on Space with Ctrl held while not
recording, start a session. -/
def on_key_press (s : SimpleState) (k : PKey) : SimpleState × List BAction :=
  let s1 := if isCtrl k then { s with ctrl_pressed := true } else s
  if k = PKey.space ∧ s1.ctrl_pressed ∧ s1.is_recording = false then
    ({ s1 with is_recording := true, recording_started := true }, [.start])
  else (s1, [])

/-- Embedding of `SimpleHotkeyHandler._on_key_release` (`simple_hotkey.py`
lines 67-85): releasing Ctrl while recording ends the session (the
spawned `_stop_recording` thread is the `endSession` action); releasing
Ctrl otherwise only clears the Ctrl state; releasing any other key,
Space included, matches no branch. -/
def on_key_release (s : SimpleState) (k : PKey) : SimpleState × List BAction :=
  if isCtrl k ∧ s.is_recording then
    ({ s with is_recording := false, recording_started := false,
              ctrl_pressed := false }, [.endSession])
  else if isCtrl k then ({ s with ctrl_pressed := false }, [])
  else (s, [])

/-- States of the blurt handler from which no qualifying event can ever
fire again: still recording, but with no recorded press time and no
pending drain. -/
def stuckInv (s : BlurtState) : Prop :=
  s.is_recording = true ∧ s.press_time = none ∧ s.drainPending = false

lemma blurtStep_stuck (cfg : Config) (s : BlurtState) (h : stuckInv s) (e : BEv) :
    stuckInv (blurtStep cfg s e).1 ∧ (blurtStep cfg s e).2 = [] := by
  obtain ⟨h1, h2, h3⟩ := h
  cases e with
  | key isPress detail st t devOk =>
      cases isPress with
      | true =>
          simp only [blurtStep]
          split
          · rw [if_neg (by simp [h1])]
            exact ⟨⟨h1, h2, h3⟩, rfl⟩
          · exact ⟨⟨h1, h2, h3⟩, rfl⟩
      | false =>
          simp only [blurtStep]
          split
          · rename_i hcond
            rw [h2] at hcond
            simp at hcond
          · exact ⟨⟨h1, h2, h3⟩, rfl⟩
  | frames xs =>
      simp only [blurtStep]
      split
      · exact ⟨⟨h1, h2, h3⟩, rfl⟩
      · exact ⟨⟨h1, h2, h3⟩, rfl⟩
  | drainDone =>
      simp only [blurtStep]
      split
      · rename_i hcond
        rw [h3] at hcond
        simp at hcond
      · exact ⟨⟨h1, h2, h3⟩, rfl⟩

lemma blurtRun_stuck (cfg : Config) :
    ∀ (evs : List BEv) (s : BlurtState), stuckInv s →
      stuckInv (blurtRun cfg s evs).1 ∧ (blurtRun cfg s evs).2 = [] := by
  intro evs
  induction evs with
  | nil => intro s h; exact ⟨h, rfl⟩
  | cons e evs ih =>
      intro s h
      have hstep := blurtStep_stuck cfg s h e
      simp only [blurtRun]
      have hrest := ih (blurtStep cfg s e).1 hstep.1
      exact ⟨hrest.1, by rw [hstep.2, hrest.2]; rfl⟩

/-- An engine that never accepts a chunk and whose final result is empty:
the "no speech detected" behaviour. -/
def silentEngine : Engine := ⟨fun _ => (false, ""), ""⟩

lemma firstHitFrom_eq_none (eng : Engine) (hAll : ∀ i, isHit eng i = false) :
    ∀ (i n : Nat), firstHitFrom eng i n = none := by
  intro i n
  induction n generalizing i with
  | zero => rfl
  | succ n ih =>
      rw [firstHitFrom]
      rw [if_neg (by rw [hAll i]; exact Bool.false_ne_true)]
      exact ih (i + 1)

/-- C1: in the blurt `HotkeyHandler` the policy is inverted with respect
to the claim.  Holding Ctrl and pressing Space at t=0, then releasing the
Space key at t=500ms while Ctrl is still held (the release event carries
the Control mask) ends the session: recording stops and the drain begins.
Releasing the Ctrl key itself (keycode 37) instead leaves the session
fully unchanged — still recording, no drain.  The `SimpleHotkeyHandler`
variant behaves as the claim says: releasing Space while recording is a
no-op and releasing Ctrl ends the session. -/
theorem blurt_session_ends_on_primary_release :
    ((blurtRun cfg0 bInit
        [.key true 65 4 0 true, .key false 65 4 500 true]).1.is_recording = false ∧
     (blurtRun cfg0 bInit
        [.key true 65 4 0 true, .key false 65 4 500 true]).1.drainPending = true) ∧
    ((blurtRun cfg0 bInit
        [.key true 65 4 0 true, .key false 37 4 500 true]).1.is_recording = true ∧
     (blurtRun cfg0 bInit
        [.key true 65 4 0 true, .key false 37 4 500 true]).1.drainPending = false) ∧
    (on_key_release ⟨true, true, true⟩ PKey.space = (⟨true, true, true⟩, []) ∧
     (on_key_release ⟨true, true, true⟩ PKey.ctrlL).1.is_recording = false ∧
     (on_key_release ⟨true, true, true⟩ PKey.ctrlL).2 = [BAction.endSession]) := by
  decide

/-- C2: a press of 100ms against the default 400ms threshold.  The
release emits no abort and no stop — but also no transition to Idle: the
handler keeps `is_recording = True` with the capture thread still
appending, and because `press_time` was cleared the resulting state is
absorbing — no later event sequence can change `is_recording` or produce
any further action.  The `abortCapture` action required by the claim is
never emitted (the code has no abort operation at all). -/
theorem short_press_leaves_capture_running :
    (blurtRun cfg0 bInit
      [.key true 65 4 0 true, .key false 65 4 100 true]).2 = [BAction.start] ∧
    (blurtRun cfg0 bInit [.key true 65 4 0 true, .key false 65 4 100 true]).1 =
      ⟨true, none, true, true, ⟨[], true, true⟩, false⟩ ∧
    (∀ evs : List BEv,
      (blurtRun cfg0 ⟨true, none, true, true, ⟨[], true, true⟩, false⟩ evs).1.is_recording
        = true ∧
      (blurtRun cfg0 ⟨true, none, true, true, ⟨[], true, true⟩, false⟩ evs).2 = []) := by
  refine ⟨by decide, by decide, ?_⟩
  intro evs
  have h := blurtRun_stuck cfg0 evs ⟨true, none, true, true, ⟨[], true, true⟩, false⟩
    ⟨rfl, rfl, rfl⟩
  exact ⟨h.1.1, h.2⟩

/-- C3: a qualifying press at t=600ms arrives while the first session
(pressed at 0, released at 500ms) is still draining — its `stop()` has
not happened yet but `is_recording` was already cleared at the release.
The press is accepted: the state changes back to recording and a second
`start()` is issued before the first session's `stop()`, so two sessions
overlap and the run shows two `start` actions for one completed
press-release cycle. -/
theorem press_during_drain_starts_second_capture :
    (blurtRun cfg0 bInit
      [.key true 65 4 0 true, .key false 65 4 500 true]).1.drainPending = true ∧
    (blurtRun cfg0 bInit
      [.key true 65 4 0 true, .key false 65 4 500 true,
       .key true 65 4 600 true]).1.is_recording = true ∧
    (blurtRun cfg0 bInit
      [.key true 65 4 0 true, .key false 65 4 500 true,
       .key true 65 4 600 true]).2 = [BAction.start, BAction.start] ∧
    (blurtRun cfg0 bInit
      [.key true 65 4 0 true, .key false 65 4 500 true,
       .key true 65 4 600 true, BEv.drainDone]).2 =
      [BAction.start, BAction.start, BAction.stop [], BAction.transcribe []] := by
  decide

/-- C4: the Text Injector is reached exactly for recognized text holding
at least one non-whitespace character: both the guard in
`Blurt._on_voice_text` and the guard inside `TextOutput.type_text` map
empty and whitespace-only text to zero emitted keystrokes. -/
theorem injector_only_on_nonwhitespace (text : String) :
    (injectedKeystrokes text = [] ↔ text.data.all isPySpace = true) ∧
    (type_text text = [] ↔ text.data.all isPySpace = true) := by
  have key := pyStrip_eq_empty_iff text
  by_cases h : pyStrip text = ""
  · simp [injectedKeystrokes, type_text, h, key.mp h]
  · have hall : ¬ text.data.all isPySpace = true := fun ha => h (key.mpr ha)
    have hne : text.data ≠ [] := by
      intro hnil
      exact h (key.mpr (by rw [hnil]; rfl))
    simp [injectedKeystrokes, type_text, h, hall, hne]

/-- C5: with the device unavailable at the press, `start_recording`
raises, but `is_recording` was already set, so the controller does not
return to Idle (the state after the press still says recording).  When
the user later releases the combination after 500ms, the release path
runs normally: `stop_recording` returns the empty payload of the
never-started recorder and the voice callback — hence `recognize` — is
invoked for that session with `b""`, on which `recognize` itself raises. -/
theorem device_failure_leaves_recording_state :
    (blurtRun cfg0 bInit [.key true 65 4 0 false]).1.is_recording = true ∧
    (blurtRun cfg0 bInit [.key true 65 4 0 false]).2 = [BAction.startFailed] ∧
    (blurtRun cfg0 bInit
      [.key true 65 4 0 false, .key false 65 4 500 true, BEv.drainDone]).2 =
      [BAction.startFailed, BAction.stop [], BAction.transcribe []] ∧
    recognize true silentEngine [] = .error () := by
  refine ⟨by decide, by decide, by decide, rfl⟩

/-- C6: `recognize` splits the parsed audio into chunks of at most 4096
frames whose concatenation is the whole frame sequence (so each chunk of
a buffer longer than 4096 frames is strictly smaller than the buffer),
returns the stripped text of the first accepted chunk with non-empty
text when one exists, falls back to the stripped end-of-stream final
result otherwise, and returns the empty string — an `ok` value, not an
error — when the engine yields no text at all. -/
theorem recognize_chunked_first_hit (eng : Engine) (bs : List Nat) (w : WavFile)
    (hp : wavParse bs = some w) :
    (∀ c ∈ chunksOfPos 4095 (framesOf w.nchannels w.dataBytes), c.length ≤ 4096) ∧
    (chunksOfPos 4095 (framesOf w.nchannels w.dataBytes)).flatten
      = framesOf w.nchannels w.dataBytes ∧
    (4096 < (framesOf w.nchannels w.dataBytes).length →
      ∀ c ∈ chunksOfPos 4095 (framesOf w.nchannels w.dataBytes),
        c.length < (framesOf w.nchannels w.dataBytes).length) ∧
    recognize true eng bs =
      .ok (match firstHitFrom eng 0
              (chunksOfPos 4095 (framesOf w.nchannels w.dataBytes)).length with
           | some j => pyStrip (eng.acceptResult j).2
           | none => pyStrip eng.finalText) ∧
    ((∀ i, isHit eng i = false) → pyStrip eng.finalText = "" →
      recognize true eng bs = .ok "") := by
  have hrec : recognize true eng bs =
      .ok (recognizeLoop eng (chunksOfPos 4095 (framesOf w.nchannels w.dataBytes)) 0) := by
    unfold recognize
    rw [if_neg (by simp), hp]
  refine ⟨?_, chunksOfPos_flatten _ _, ?_, ?_, ?_⟩
  · intro c hc
    have := chunksOfPos_mem_length_le 4095 _ c hc
    omega
  · intro hl c hc
    have := chunksOfPos_mem_length_le 4095 _ c hc
    omega
  · rw [hrec, recognizeLoop_spec]
  · intro hAll hFin
    rw [hrec, recognizeLoop_spec, firstHitFrom_eq_none eng hAll, hFin]

/-- Witness for C6 at a concrete container: a 4-byte mono capture parsed
back from `wavEncode`, fed to the silent engine, recognizes to the empty
string. -/
theorem recognize_chunked_first_hit_witness :
    wavParse (wavEncode ⟨1, 16000⟩ [0, 0, 0, 0]) = some ⟨1, 16000, [0, 0, 0, 0]⟩ ∧
    recognize true silentEngine (wavEncode ⟨1, 16000⟩ [0, 0, 0, 0]) = .ok "" := by
  refine ⟨by decide, ?_⟩
  exact (recognize_chunked_first_hit silentEngine _ ⟨1, 16000, [0, 0, 0, 0]⟩
    (by decide)).2.2.2.2 (fun i => rfl) rfl

/-- C7 counterexample: a capture of N = 0 total sample frames.
`stop_recording` returns the empty byte string, which is not a WAV
envelope at all — it has no header whose byte counts could equal
`N * bytes_per_sample * channels`, and a standard WAV reader rejects
it. -/
theorem stop_zero_frames_no_envelope :
    (stop_recording cfg0 ⟨[], true, true⟩).1 = ([] : List Nat) ∧
    wavParse (stop_recording cfg0 ⟨[], true, true⟩).1 = none := by
  decide

/-- C7 (amended): for every capture of N ≥ 1 total sample frames — the
sample buffer holding `N * channels` 16-bit samples — the container
built on stop is a WAV envelope whose data chunk size field is exactly
`N * 2 * channels` and whose RIFF size field is exactly
`36 + N * 2 * channels`, and it round-trips through a standard WAV
reader, recovering the channel count, sample rate and all
`N * 2 * channels` data bytes. -/
theorem stop_wav_header_exact (cfg : Config) (s : AudioRecorderState) (N : Nat)
    (hN : s.recording.length = N * cfg.channels) (hN1 : 1 ≤ N)
    (hch0 : cfg.channels ≠ 0) (hch : cfg.channels < 65536)
    (hrate : cfg.sample_rate < 4294967296)
    (hlen : 36 + 2 * s.recording.length < 4294967296) :
    seg (stop_recording cfg s).1 40 4 = le32 (N * 2 * cfg.channels) ∧
    seg (stop_recording cfg s).1 4 4 = le32 (36 + N * 2 * cfg.channels) ∧
    wavParse (stop_recording cfg s).1 =
      some ⟨cfg.channels, cfg.sample_rate, samplesBytes s.recording⟩ ∧
    (samplesBytes s.recording).length = N * 2 * cfg.channels := by
  have hlenb : (samplesBytes s.recording).length = 2 * s.recording.length :=
    samplesBytes_length _
  have hne : s.recording ≠ [] := by
    intro hnil
    rw [hnil] at hN
    simp at hN
    rcases hN with hN | hN
    · omega
    · exact hch0 hN
  have hpay : (stop_recording cfg s).1 =
      wavEncode ⟨cfg.channels, cfg.sample_rate⟩ (samplesBytes s.recording) := by
    unfold stop_recording
    rw [if_neg hne]
  refine ⟨?_, ?_, ?_, by rw [hlenb, hN]; ring⟩
  · rw [hpay]
    have hseg : seg (wavEncode ⟨cfg.channels, cfg.sample_rate⟩
        (samplesBytes s.recording)) 40 4 = le32 (samplesBytes s.recording).length := by
      simp [wavEncode, seg, le16, le32]
    rw [hseg, hlenb, hN]
    congr 1
    ring
  · rw [hpay]
    have hseg : seg (wavEncode ⟨cfg.channels, cfg.sample_rate⟩
        (samplesBytes s.recording)) 4 4 =
        le32 (36 + (samplesBytes s.recording).length) := by
      simp [wavEncode, seg, le16, le32]
    rw [hseg, hlenb, hN]
    congr 1
    ring
  · rw [hpay]
    exact wavParse_wavEncode ⟨cfg.channels, cfg.sample_rate⟩ _ hch hch0 hrate
      (by omega)

/-- Witness for the amended C7: a stereo configuration capturing one
frame of two 16-bit samples (one of them negative). -/
theorem stop_wav_header_exact_witness :
    (⟨[5, -3], true, true⟩ : AudioRecorderState).recording.length =
      1 * (⟨16000, 400, 300, 2⟩ : Config).channels ∧
    wavParse (stop_recording ⟨16000, 400, 300, 2⟩ ⟨[5, -3], true, true⟩).1 =
      some ⟨2, 16000, samplesBytes [5, -3]⟩ := by
  refine ⟨by decide, ?_⟩
  exact (stop_wav_header_exact ⟨16000, 400, 300, 2⟩ ⟨[5, -3], true, true⟩ 1
    (by decide) (by decide) (by decide) (by decide) (by decide) (by decide)).2.2.1

/-- C8 counterexample: calling `stop_recording` while not recording, on a
recorder whose buffer still holds the single sample 5 from an earlier
capture (exactly the state a first stop leaves behind), returns that
capture's full WAV payload again — stale data with one frame, not an
empty container. -/
theorem stop_idle_returns_stale :
    (stop_recording cfg0 ⟨[5], true, true⟩).2 = ⟨[5], false, false⟩ ∧
    (stop_recording cfg0 ⟨[5], false, false⟩).1 ≠ ([] : List Nat) ∧
    (stop_recording cfg0 ⟨[5], false, false⟩).1 =
      (stop_recording cfg0 ⟨[5], true, true⟩).1 ∧
    wavParse (stop_recording cfg0 ⟨[5], false, false⟩).1 =
      some ⟨1, 16000, [5, 0]⟩ := by
  decide

/-- C8 (amended): `stop_recording` never fails when called while not
recording; it returns the payload of whatever samples remain in the
buffer — the buffer is not cleared by stop, so an immediate second stop
returns exactly the first stop's payload (stale data when samples
remain), and only a recorder whose buffer is empty yields the empty byte
string, which is not a zero-frame WAV container. -/
theorem stop_not_recording_total (cfg : Config) (s : AudioRecorderState) :
    (stop_recording cfg (stop_recording cfg s).2).1 = (stop_recording cfg s).1 ∧
    ((stop_recording cfg s).2).recording = s.recording ∧
    (s.recording = [] → (stop_recording cfg s).1 = []) := by
  unfold stop_recording
  by_cases h : s.recording = [] <;> simp [h]

/-- Witness for the amended C8 on a fresh recorder. -/
theorem stop_not_recording_total_witness :
    ([] : List Int) = [] ∧ (stop_recording cfg0 ⟨[], false, false⟩).1 = [] :=
  ⟨rfl, (stop_not_recording_total cfg0 ⟨[], false, false⟩).2.2 rfl⟩

/-- C9: a session whose capture buffer is empty (for instance after a
failed device open, see C5) hands `b""` to `Blurt._on_voice_text`, whose
un-guarded `recognize` call raises; the exception escapes the controller
callback instead of being absorbed at the Session Controller boundary. -/
theorem empty_capture_error_escapes_controller :
    (stop_recording cfg0 ⟨[], true, true⟩).1 = ([] : List Nat) ∧
    on_voice_text true silentEngine [] = .error () := by
  exact ⟨rfl, rfl⟩

/-- C10: with a model loaded, `recognize` raises on any byte payload that
does not parse as a WAV container; in particular the empty byte string
returned by `stop_recording` for a sample-less capture does not parse. -/
theorem recognize_errors_on_unparseable (eng : Engine) (bs : List Nat)
    (hbad : wavParse bs = none) :
    recognize true eng bs = .error () ∧
    (stop_recording cfg0 ⟨[], false, false⟩).1 = ([] : List Nat) ∧
    wavParse ([] : List Nat) = none := by
  refine ⟨?_, rfl, rfl⟩
  unfold recognize
  rw [if_neg (by simp), hbad]

/-- Witness for C10 at the empty byte string. -/
theorem recognize_errors_on_unparseable_witness :
    wavParse ([] : List Nat) = none ∧
    recognize true silentEngine [] = .error () :=
  ⟨by decide, (recognize_errors_on_unparseable silentEngine [] (by decide)).1⟩
